import Mathlib

/-
Verification of the Redux state container of the StateWithRedux app.

The embedded code is the store logic of src/unnamed/part_000 (and the
matching definitions of src/app/index.jsx): the two slices built with
createSlice (`uiSlice`, `todosSlice`), the store combining them, the two
derived selectors of PendingTasksCard / CompletedTasksCard, and the
user-level add handler `handleAdd` of TodosCard.

Task ids are nanoid strings and `createdAt` is a Date.now() millisecond
timestamp; we model ids as `String` and timestamps as `Nat`.  Since
`nanoid()` and `Date.now()` are impure, the operations that use them
take the generated id and timestamp as explicit arguments.
-/

namespace TodoApp

/-- A task record, as built by addTodo.prepare:
`{ id: nanoid(), title, done: false, createdAt: Date.now() }`. -/
structure Task where
  id : String
  title : String
  done : Bool
  createdAt : Nat
deriving DecidableEq, Repr

/-- The todos slice state: `initialState: { items: [] }`. -/
structure TodosState where
  items : List Task
deriving DecidableEq, Repr

/-- The ui slice state: `initialState: { darkMode: false, showBanner: true }`. -/
structure UiState where
  darkMode : Bool
  showBanner : Bool
deriving DecidableEq, Repr

/-- The combined store: `configureStore({ reducer: { ui, todos } })`. -/
structure Store where
  ui : UiState
  todos : TodosState
deriving DecidableEq, Repr

def initialUi : UiState := { darkMode := false, showBanner := true }

def initialTodos : TodosState := { items := [] }

def initialStore : Store := { ui := initialUi, todos := initialTodos }

/-- uiSlice reducer `toggleDarkMode`: `state.darkMode = !state.darkMode`. -/
def toggleDarkMode (s : UiState) : UiState :=
  { s with darkMode := !s.darkMode }

/-- uiSlice reducer `dismissBanner`: `state.showBanner = false`. -/
def dismissBanner (s : UiState) : UiState :=
  { s with showBanner := false }

/-- todosSlice reducer `addTodo`: `state.items.unshift(action.payload)` where
the payload comes from `prepare(title)`:
`{ id: nanoid(), title, done: false, createdAt: Date.now() }`.
The fresh id and the timestamp are explicit arguments. -/
def addTodo (id : String) (now : Nat) (title : String) (s : TodosState) : TodosState :=
  { s with items := { id := id, title := title, done := false, createdAt := now } :: s.items }

/-- Helper for `toggleTodo`: JS `find` locates the FIRST element with the
given id, and the reducer flips its `done` flag in place, leaving every
other element (and every position) untouched. -/
def toggleItems (id : String) : List Task → List Task
  | [] => []
  | t :: ts => if t.id = id then { t with done := !t.done } :: ts else t :: toggleItems id ts

/-- todosSlice reducer `toggleTodo`:
`const t = state.items.find((x) => x.id === action.payload); if (t) t.done = !t.done;`. -/
def toggleTodo (id : String) (s : TodosState) : TodosState :=
  { s with items := toggleItems id s.items }

/-- todosSlice reducer `removeTodo`:
`state.items = state.items.filter((x) => x.id !== action.payload)`. -/
def removeTodo (id : String) (s : TodosState) : TodosState :=
  { s with items := s.items.filter (fun x => x.id != id) }

/-- todosSlice reducer `clearTodos`: `state.items = []`. -/
def clearTodos (s : TodosState) : TodosState :=
  { s with items := [] }

/-- todosSlice reducer `clearPending`:
`state.items = state.items.filter((item) => item.done)`. -/
def clearPending (s : TodosState) : TodosState :=
  { s with items := s.items.filter (fun t => t.done) }

/-- todosSlice reducer `clearCompleted`:
`state.items = state.items.filter((item) => !item.done)`. -/
def clearCompleted (s : TodosState) : TodosState :=
  { s with items := s.items.filter (fun t => !t.done) }

/-- Model of JavaScript `String.prototype.trim`: strip whitespace from both
ends of the string.  (Defined on the character list so that it evaluates
by kernel reduction; for the ASCII whitespace relevant here it agrees
with the JS runtime.) -/
def jsTrim (s : String) : String :=
  ⟨((s.data.dropWhile Char.isWhitespace).reverse.dropWhile Char.isWhitespace).reverse⟩

/-- The user-level addTask operation of the spec, as implemented by
`handleAdd` (part_000 lines 197-202):
`if (!title.trim()) return; dispatch(addTodo(title.trim()));`
An empty or whitespace-only title (falsy `title.trim()`, i.e. the empty
string after trimming) leaves the state untouched; otherwise the trimmed
title is added through the `addTodo` reducer. -/
def addTask (id : String) (now : Nat) (title : String) (s : TodosState) : TodosState :=
  if jsTrim title = "" then s else addTodo id now (jsTrim title) s

/-- Spec name for the `toggleTodo` reducer (spec section 4.2 toggleTask). -/
def toggleTask (id : String) (s : TodosState) : TodosState := toggleTodo id s

/-- Spec name for the `removeTodo` reducer (spec section 4.2 removeTask). -/
def removeTask (id : String) (s : TodosState) : TodosState := removeTodo id s

/-- Spec name for the `clearTodos` reducer (spec section 4.2 clearAll). -/
def clearAll (s : TodosState) : TodosState := clearTodos s

/-- Derived pending view, the selector of PendingTasksCard (line 240):
`s.todos.items.filter((item) => !item.done)`. -/
def pendingView (s : TodosState) : List Task :=
  s.items.filter (fun t => !t.done)

/-- Derived completed view, the selector of CompletedTasksCard (line 297):
`s.todos.items.filter((item) => item.done)`. -/
def completedView (s : TodosState) : List Task :=
  s.items.filter (fun t => t.done)

/-- The ids of a list of task records. -/
def idsOf (l : List Task) : List String := l.map Task.id

/-- Reachable todo-slice states: every state the running app can put the
todos slice in, starting from the initial empty collection and applying
the operations the UI dispatches.  The `add` step carries the freshness
side condition `id ∉ idsOf s.items`, which models the spec's nanoid
guarantee that ids are unique across all records ever created. -/
inductive Reach : TodosState → Prop
  | init : Reach initialTodos
  | add (s : TodosState) (id : String) (now : Nat) (title : String) :
      Reach s → id ∉ idsOf s.items → Reach (addTask id now title s)
  | toggle (s : TodosState) (id : String) : Reach s → Reach (toggleTask id s)
  | remove (s : TodosState) (id : String) : Reach s → Reach (removeTask id s)
  | clear (s : TodosState) : Reach s → Reach (clearAll s)
  | clearPend (s : TodosState) : Reach s → Reach (clearPending s)
  | clearComp (s : TodosState) : Reach s → Reach (clearCompleted s)

/-- The actions the store understands, one per reducer of the two slices. -/
inductive StoreAction where
  | toggleDarkMode
  | dismissBanner
  | addTodo (id : String) (now : Nat) (title : String)
  | toggleTodo (id : String)
  | removeTodo (id : String)
  | clearTodos
  | clearPending
  | clearCompleted

/-- Store dispatch, modelling `configureStore({ reducer: { ui, todos } })`:
the combined reducer routes each action to the slice that declared it and
leaves the other slice's state as is (a slice reducer returns its state
unchanged on actions it does not know). -/
def dispatch : StoreAction → Store → Store
  | .toggleDarkMode, s => { s with ui := toggleDarkMode s.ui }
  | .dismissBanner, s => { s with ui := dismissBanner s.ui }
  | .addTodo id now title, s => { s with todos := addTodo id now title s.todos }
  | .toggleTodo id, s => { s with todos := toggleTodo id s.todos }
  | .removeTodo id, s => { s with todos := removeTodo id s.todos }
  | .clearTodos, s => { s with todos := clearTodos s.todos }
  | .clearPending, s => { s with todos := clearPending s.todos }
  | .clearCompleted, s => { s with todos := clearCompleted s.todos }

/-- The user-level addTask flow at store level (`handleAdd`): guard on the
trimmed title, then dispatch `addTodo` with the trimmed title. -/
def storeAddTask (id : String) (now : Nat) (title : String) (s : Store) : Store :=
  if jsTrim title = "" then s else dispatch (.addTodo id now (jsTrim title)) s

/-- The two UI-slice operations, for reasoning about sequences of them. -/
inductive UiAction where
  | toggleDark
  | dismiss

/-- Apply one UI action through the uiSlice reducer. -/
def uiApply : UiAction → UiState → UiState
  | .toggleDark, s => toggleDarkMode s
  | .dismiss, s => dismissBanner s

/-- Apply a sequence of UI actions, oldest first. -/
def uiApplyAll : List UiAction → UiState → UiState
  | [], s => s
  | a :: rest, s => uiApplyAll rest (uiApply a s)

/-- One user-level addTask call: the generated id, the Date.now()
timestamp, and the raw title the user typed. -/
structure AddCall where
  id : String
  now : Nat
  title : String
deriving DecidableEq, Repr

/-- Apply a sequence of addTask calls, oldest first. -/
def applyAddCalls : List AddCall → TodosState → TodosState
  | [], s => s
  | c :: cs, s => applyAddCalls cs (addTask c.id c.now c.title s)

/-- Sample task used by concrete witnesses. -/
def tMilk : Task := { id := "a", title := "milk", done := false, createdAt := 0 }

/-- Sample task used by concrete witnesses. -/
def tDog : Task := { id := "b", title := "dog", done := true, createdAt := 1 }

/-- Sample two-task collection used by concrete witnesses. -/
def sampleTodos : TodosState := { items := [tDog, tMilk] }

/-- A sample reachable state: add "milk", add "dog", then toggle the
"milk" task done.  Used by the concrete witness of the view-partition
invariant. -/
def sampleReachable : TodosState :=
  toggleTask "a" (addTask "b" 1 "dog" (addTask "a" 0 "milk" initialTodos))

/-- Sample sequence of two addTask calls (the second title carries
surrounding whitespace that the handler trims away). -/
def sampleCalls : List AddCall :=
  [{ id := "a", now := 1, title := "milk" }, { id := "b", now := 2, title := " dog " }]

/- ===================  helper lemmas  =================== -/

theorem ids_toggleItems (id : String) (l : List Task) :
    idsOf (toggleItems id l) = idsOf l := by
  induction l with
  | nil => rfl
  | cons t ts ih =>
    simp only [toggleItems]
    split
    · simp [idsOf]
    · simp only [idsOf, List.map_cons]
      rw [show (toggleItems id ts).map Task.id = idsOf (toggleItems id ts) from rfl, ih]
      rfl

theorem toggleItems_involution (id : String) (l : List Task) :
    toggleItems id (toggleItems id l) = l := by
  induction l with
  | nil => rfl
  | cons t ts ih =>
    by_cases h : t.id = id
    · simp only [toggleItems, h, if_pos, ite_true, Bool.not_not]
      rw [← h]
    · simp [toggleItems, h, ih]

theorem toggleItems_not_mem (id : String) (l : List Task) (h : id ∉ idsOf l) :
    toggleItems id l = l := by
  induction l with
  | nil => rfl
  | cons t ts ih =>
    simp only [idsOf, List.map_cons, List.mem_cons, not_or] at h
    simp only [toggleItems]
    rw [if_neg (fun he => h.1 he.symm), ih h.2]

theorem toggleItems_first (l1 l2 : List Task) (t : Task)
    (h1 : ∀ u ∈ l1, u.id ≠ t.id) :
    toggleItems t.id (l1 ++ t :: l2) = l1 ++ { t with done := !t.done } :: l2 := by
  induction l1 with
  | nil => simp [toggleItems]
  | cons u us ih =>
    have hu : u.id ≠ t.id := h1 u (List.mem_cons_self u us)
    have ih2 := ih (fun v hv => h1 v (List.mem_cons_of_mem u hv))
    simp only [List.cons_append, toggleItems]
    rw [if_neg hu]
    exact congrArg (List.cons u) ih2

theorem filter_done_filter_not_done (l : List Task) :
    (l.filter (fun t => t.done)).filter (fun t => !t.done) = [] := by
  rw [List.filter_filter]
  simp [Bool.not_and_self]

theorem filter_not_done_filter_done (l : List Task) :
    (l.filter (fun t => !t.done)).filter (fun t => t.done) = [] := by
  rw [List.filter_filter]
  simp [Bool.and_not_self]

theorem filter_done_idem (l : List Task) :
    (l.filter (fun t => t.done)).filter (fun t => t.done) = l.filter (fun t => t.done) := by
  rw [List.filter_filter]
  simp

theorem nodup_ids_filter (p : Task → Bool) (items : List Task)
    (h : (idsOf items).Nodup) : (idsOf (items.filter p)).Nodup :=
  List.Nodup.sublist (List.Sublist.map Task.id (List.filter_sublist items)) h

theorem mem_views_iff (l : List Task) (i : String) :
    (i ∈ idsOf (l.filter (fun t => !t.done)) ∨ i ∈ idsOf (l.filter (fun t => t.done)))
      ↔ i ∈ idsOf l := by
  simp only [idsOf, List.mem_map, List.mem_filter]
  constructor
  · rintro (⟨t, ⟨htl, _⟩, rfl⟩ | ⟨t, ⟨htl, _⟩, rfl⟩) <;> exact ⟨t, htl, rfl⟩
  · rintro ⟨t, htl, rfl⟩
    cases hdone : t.done
    · exact Or.inl ⟨t, ⟨htl, by simp [hdone]⟩, rfl⟩
    · exact Or.inr ⟨t, ⟨htl, hdone⟩, rfl⟩

theorem disjoint_views (l : List Task) (h : (idsOf l).Nodup) (i : String)
    (hp : i ∈ idsOf (l.filter (fun t => !t.done))) :
    i ∉ idsOf (l.filter (fun t => t.done)) := by
  simp only [idsOf, List.mem_map, List.mem_filter] at hp ⊢
  rintro ⟨t2, ⟨ht2, hd2⟩, rfl⟩
  obtain ⟨t1, ⟨ht1, hd1⟩, hid⟩ := hp
  have heq : t1 = t2 :=
    List.inj_on_of_nodup_map (by simpa [idsOf] using h) ht1 ht2 hid
  subst heq
  rw [hd2] at hd1
  simp at hd1

theorem reach_nodup_ids (s : TodosState) (h : Reach s) : (idsOf s.items).Nodup := by
  induction h with
  | init => simp [initialTodos, idsOf]
  | add s id now title _ hfresh ih =>
    by_cases ht : jsTrim title = ""
    · simpa [addTask, ht] using ih
    · simp only [addTask, ht, if_neg, ite_false, addTodo, idsOf, List.map_cons]
      exact List.nodup_cons.mpr ⟨hfresh, ih⟩
  | toggle s id _ ih =>
    simpa [toggleTask, toggleTodo, ids_toggleItems] using ih
  | remove s id _ ih =>
    exact nodup_ids_filter _ _ ih
  | clear s _ _ => simp [clearAll, clearTodos, idsOf]
  | clearPend s _ ih => exact nodup_ids_filter _ _ ih
  | clearComp s _ ih => exact nodup_ids_filter _ _ ih

/- ===================  claim theorems  =================== -/

/-- C1: for every task collection state, invoking the addTask operation
with a title that is empty or whitespace-only (i.e. empty after trimming)
leaves the task collection unchanged: no record is created, and the
resulting state is identical to the input state. -/
theorem addTask_empty_title_noop (s : TodosState) (id : String) (now : Nat)
    (title : String) (h : jsTrim title = "") : addTask id now title s = s := by
  simp [addTask, h]

/-- Witness for C1 at the empty and a whitespace-only title over a
non-empty sample collection. -/
theorem addTask_empty_title_noop_witness :
    (jsTrim "   " = "" ∧ addTask "t1" 5 "   " sampleTodos = sampleTodos) ∧
    (jsTrim "" = "" ∧ addTask "t2" 6 "" sampleTodos = sampleTodos) :=
  ⟨⟨by decide, addTask_empty_title_noop sampleTodos "t1" 5 "   " (by decide)⟩,
   ⟨by decide, addTask_empty_title_noop sampleTodos "t2" 6 "" (by decide)⟩⟩

/-- C4: applying toggleTask twice with the id of a task in the collection
returns the whole collection (in particular that task's done flag) to its
original value: toggleTask is an involution. -/
theorem toggleTask_twice_restores (s : TodosState) (t : Task) (ht : t ∈ s.items) :
    toggleTask t.id (toggleTask t.id s) = s := by
  cases s with
  | mk items =>
    simp [toggleTask, toggleTodo, toggleItems_involution]

/-- Witness for C4 on a concrete two-task collection. -/
theorem toggleTask_twice_restores_witness :
    toggleTask "a" (toggleTask "a" sampleTodos) = sampleTodos :=
  toggleTask_twice_restores sampleTodos tMilk (by decide)

/-- C5: toggleTask and removeTask with an id that matches no record of the
collection both return the collection unchanged (benign no-ops). -/
theorem unknown_id_noop (s : TodosState) (id : String) (h : id ∉ idsOf s.items) :
    toggleTask id s = s ∧ removeTask id s = s := by
  constructor
  · show toggleTodo id s = s
    unfold toggleTodo
    rw [toggleItems_not_mem id s.items h]
  · show removeTodo id s = s
    unfold removeTodo
    have hf : s.items.filter (fun x => x.id != id) = s.items := by
      refine List.filter_eq_self.mpr ?_
      intro x hx
      simp only [bne_iff_ne, ne_eq]
      intro he
      exact h (he ▸ List.mem_map_of_mem Task.id hx)
    rw [hf]

/-- Witness for C5 with an id absent from a concrete two-task collection. -/
theorem unknown_id_noop_witness :
    toggleTask "zzz" sampleTodos = sampleTodos ∧ removeTask "zzz" sampleTodos = sampleTodos :=
  unknown_id_noop sampleTodos "zzz" (by decide)

/-- C7: clearPending removes exactly the records with done = false: the
pending view of the result is empty, the completed view is unchanged, the
surviving records form a sublist of the input (original relative order),
and a record survives iff it was in the input with done = true. -/
theorem clearPending_spec (s : TodosState) :
    pendingView (clearPending s) = [] ∧
    completedView (clearPending s) = completedView s ∧
    (clearPending s).items.Sublist s.items ∧
    (∀ t : Task, t ∈ (clearPending s).items ↔ t ∈ s.items ∧ t.done = true) := by
  refine ⟨?_, ?_, ?_, ?_⟩
  · show (s.items.filter (fun t => t.done)).filter (fun t => !t.done) = []
    exact filter_done_filter_not_done s.items
  · show (s.items.filter (fun t => t.done)).filter (fun t => t.done)
      = s.items.filter (fun t => t.done)
    exact filter_done_idem s.items
  · exact List.filter_sublist s.items
  · intro t
    show t ∈ s.items.filter (fun t => t.done) ↔ _
    simp [List.mem_filter]

/-- C8: the showBanner flag starts true, is only ever lowered (no sequence
of UI operations can raise it back to true), and dismissBanner sets it to
false unconditionally and idempotently. -/
theorem showBanner_never_reset (s : UiState) (acts : List UiAction) :
    initialUi.showBanner = true ∧
    (uiApplyAll acts s).showBanner ≤ s.showBanner ∧
    (dismissBanner s).showBanner = false ∧
    dismissBanner (dismissBanner s) = dismissBanner s := by
  refine ⟨rfl, ?_, rfl, rfl⟩
  induction acts generalizing s with
  | nil => exact le_refl _
  | cons a rest ih =>
    refine le_trans (ih (uiApply a s)) ?_
    cases a with
    | toggleDark => exact le_refl _
    | dismiss => exact Bool.false_le _

/-- C9: cross-slice frame: the ui-slice actions leave the todos slice of
the store unchanged, and every todos-slice action (including the
user-level addTask flow) leaves the ui slice unchanged. -/
theorem cross_slice_frame (s : Store) (id : String) (now : Nat) (title : String) :
    (dispatch .toggleDarkMode s).todos = s.todos ∧
    (dispatch .dismissBanner s).todos = s.todos ∧
    (storeAddTask id now title s).ui = s.ui ∧
    (dispatch (.addTodo id now title) s).ui = s.ui ∧
    (dispatch (.toggleTodo id) s).ui = s.ui ∧
    (dispatch (.removeTodo id) s).ui = s.ui ∧
    (dispatch .clearTodos s).ui = s.ui ∧
    (dispatch .clearPending s).ui = s.ui ∧
    (dispatch .clearCompleted s).ui = s.ui := by
  refine ⟨rfl, rfl, ?_, rfl, rfl, rfl, rfl, rfl, rfl⟩
  unfold storeAddTask
  split <;> rfl

/-- C10: the two group-clear operations compose, in either order, to the
clearAll operation: both orders empty the collection. -/
theorem clear_compose_eq_clearAll (s : TodosState) :
    clearCompleted (clearPending s) = clearAll s ∧
    clearPending (clearCompleted s) = clearAll s := by
  constructor
  · show ({ items := (s.items.filter (fun t => t.done)).filter (fun t => !t.done) } : TodosState)
      = { items := [] }
    rw [filter_done_filter_not_done]
  · show ({ items := (s.items.filter (fun t => !t.done)).filter (fun t => t.done) } : TodosState)
      = { items := [] }
    rw [filter_not_done_filter_done]

/-- C3: toggleTask on a collection containing a record with the given id
(written as a prefix l1 holding no record with that id, the found record
t, and the suffix l2) negates exactly that record's done flag while its
id, title, createdAt and position are unchanged, and every other record
is unchanged. -/
theorem toggleTask_found_frame (l1 l2 : List Task) (t : Task) (id : String)
    (hid : t.id = id) (hfirst : ∀ u ∈ l1, u.id ≠ id) :
    toggleTask id { items := l1 ++ t :: l2 } =
      { items := l1 ++ { t with done := !t.done } :: l2 } := by
  subst hid
  show ({ items := toggleItems t.id (l1 ++ t :: l2) } : TodosState) = _
  rw [toggleItems_first l1 l2 t hfirst]

/-- Witness for C3 on a concrete two-task collection: toggling the second
task flips only its done flag. -/
theorem toggleTask_found_frame_witness :
    toggleTask "a" { items := [tDog, tMilk] } =
      { items := [tDog, { id := "a", title := "milk", done := true, createdAt := 0 }] } :=
  toggleTask_found_frame [tDog] [] tMilk "a" rfl (by decide)

/-- C2: in every reachable state of the todos slice, the pending and
completed views partition the task ids: no id belongs to both views, and
an id belongs to one of the views exactly when it is the id of a task in
the collection. -/
theorem reachable_views_partition (s : TodosState) (h : Reach s) :
    (∀ i, i ∈ idsOf (pendingView s) → i ∉ idsOf (completedView s)) ∧
    (∀ i, (i ∈ idsOf (pendingView s) ∨ i ∈ idsOf (completedView s)) ↔ i ∈ idsOf s.items) := by
  refine ⟨fun i hp => ?_, fun i => ?_⟩
  · exact disjoint_views s.items (reach_nodup_ids s h) i hp
  · exact mem_views_iff s.items i

/-- Witness for C2 on a concrete reachable state with one pending and one
completed task. -/
theorem reachable_views_partition_witness :
    (("a" ∈ idsOf (pendingView sampleReachable) ∨ "a" ∈ idsOf (completedView sampleReachable))
      ↔ "a" ∈ idsOf sampleReachable.items) ∧
    ("b" ∈ idsOf (pendingView sampleReachable) → "b" ∉ idsOf (completedView sampleReachable)) := by
  have hr : Reach sampleReachable :=
    Reach.toggle _ "a"
      (Reach.add _ "b" 1 "dog" (Reach.add _ "a" 0 "milk" Reach.init (by decide)) (by decide))
  exact ⟨(reachable_views_partition _ hr).2 "a",
         fun hb => (reachable_views_partition _ hr).1 "b" hb⟩

theorem applyAddCalls_append (cs ds : List AddCall) (s : TodosState) :
    applyAddCalls (cs ++ ds) s = applyAddCalls ds (applyAddCalls cs s) := by
  induction cs generalizing s with
  | nil => rfl
  | cons c cs ih =>
    simp only [List.cons_append, applyAddCalls]
    exact ih _

theorem addTask_nonempty_items (id : String) (now : Nat) (title : String)
    (s : TodosState) (h : jsTrim title ≠ "") :
    (addTask id now title s).items =
      { id := id, title := jsTrim title, done := false, createdAt := now } :: s.items := by
  simp [addTask, h, addTodo]

theorem applyAddCalls_length (calls : List AddCall) (s : TodosState)
    (h : ∀ c ∈ calls, jsTrim c.title ≠ "") :
    (applyAddCalls calls s).items.length = s.items.length + calls.length := by
  induction calls generalizing s with
  | nil => rfl
  | cons c cs ih =>
    have hc := h c (List.mem_cons_self c cs)
    show (applyAddCalls cs (addTask c.id c.now c.title s)).items.length = _
    rw [ih _ (fun d hd => h d (List.mem_cons_of_mem c hd)),
        addTask_nonempty_items _ _ _ _ hc]
    simp only [List.length_cons]
    omega

/-- C6: starting from any collection, a sequence of addTask calls whose
titles are non-empty after trimming grows the collection by exactly the
number of calls, and after each call the newly created record (trimmed
title, done = false) sits at index 0. -/
theorem addTask_sequence (calls : List AddCall) (s : TodosState)
    (h : ∀ c ∈ calls, jsTrim c.title ≠ "") :
    (applyAddCalls calls s).items.length = s.items.length + calls.length ∧
    ∀ k (hk : k < calls.length),
      (applyAddCalls (calls.take (k+1)) s).items.head? =
        some { id := calls[k].id, title := jsTrim calls[k].title,
               done := false, createdAt := calls[k].now } := by
  refine ⟨applyAddCalls_length calls s h, ?_⟩
  intro k hk
  have htake : calls.take (k+1) = calls.take k ++ [calls[k]] := by
    rw [List.take_succ, List.getElem?_eq_getElem hk]
    rfl
  have hc : jsTrim calls[k].title ≠ "" := h _ (List.getElem_mem hk)
  rw [htake, applyAddCalls_append]
  show (addTask calls[k].id calls[k].now calls[k].title _).items.head? = _
  rw [addTask_nonempty_items _ _ _ _ hc]
  rfl

/-- Witness for C6 on two concrete calls starting from the empty
collection: the size grows by two and the latest record is at the front
with its title trimmed. -/
theorem addTask_sequence_witness :
    (applyAddCalls sampleCalls initialTodos).items.length = initialTodos.items.length + 2 ∧
    (applyAddCalls (sampleCalls.take 2) initialTodos).items.head? =
      some { id := "b", title := "dog", done := false, createdAt := 2 } := by
  have h : ∀ c ∈ sampleCalls, jsTrim c.title ≠ "" := by decide
  exact ⟨(addTask_sequence sampleCalls initialTodos h).1,
         (addTask_sequence sampleCalls initialTodos h).2 1 (by decide)⟩

end TodoApp
